import Mathlib

/-!
Shallow embedding of the pytesseract core (src/pytesseract.py) together with
proofs about the specification claims. Python strings are modelled as Lean
strings, Python exceptions as `Except` errors, the file system as a list of
named entries, and the external process together with its countdown timer as
an explicit outcome record. Floating point values produced by Python's
float() are kept symbolic (as their source text), since no claim depends on
their numeric value.
-/

namespace Pytess

/-- The Python exceptions that the embedded code can raise.
`tessErr` is TesseractError, `notFoundErr` is TesseractNotFoundError,
`tsvNotSupported` is TSVNotSupported and `timeoutRuntime` is the
RuntimeError raised by `timeout_manager` on timeout. -/
inductive Err
  | keyErr
  | indexErr
  | typeErr
  | valueErr (msg : String)
  | osErr (errno : Nat)
  | tessErr (status : Int) (msg : String)
  | notFoundErr
  | tsvNotSupported
  | timeoutRuntime
deriving DecidableEq, Repr

/-- Python str.isdigit restricted to ASCII: nonempty and all decimal digits. -/
def pyIsdigit (s : String) : Bool := !s.data.isEmpty && s.data.all Char.isDigit

/-- Numeric value of a list of decimal digits, most significant first. -/
def digitsToNat (l : List Char) : Nat := l.foldl (fun n c => n * 10 + (c.toNat - 48)) 0

/-- Python int(s) for an all-digit string. -/
def pyInt (s : String) : Int := (digitsToNat s.data : Nat)

/-- ASCII whitespace as stripped by Python str.strip(). -/
def pyIsSpaceB (c : Char) : Bool :=
  c = ' ' || c = '\t' || c = '\n' || c = '\r' || c = '\x0b' || c = '\x0c'

/-- Python str.strip() for ASCII whitespace. -/
def pyStrip (s : String) : String :=
  String.mk (((s.data.dropWhile pyIsSpaceB).reverse.dropWhile pyIsSpaceB).reverse)

/-- Whether the first list is an initial segment of the second. -/
def isPrefixList : List Char → List Char → Bool
  | [], _ => true
  | _ :: _, [] => false
  | a :: as, b :: bs => a == b && isPrefixList as bs

/-- Python str.startswith. -/
def pyStartswith (s pat : String) : Bool := isPrefixList pat.data s.data

/-- Locate the first occurrence of the separator `c :: cs` in a list,
returning the part before it and the part after it. -/
def findSplit (c : Char) (cs : List Char) : List Char → Option (List Char × List Char)
  | [] => none
  | a :: rest =>
    if isPrefixList (c :: cs) (a :: rest) then
      some ([], List.drop cs.length rest)
    else
      (findSplit c cs rest).map (fun pr => (a :: pr.1, pr.2))

theorem findSplit_post_lt (c : Char) (cs : List Char) :
    ∀ (s : List Char) (pre post : List Char),
      findSplit c cs s = some (pre, post) → post.length < s.length := by
  intro s
  induction s with
  | nil => intro pre post h; simp [findSplit] at h
  | cons a rest ih =>
    intro pre post h
    rw [findSplit] at h
    by_cases hp : isPrefixList (c :: cs) (a :: rest) = true
    · rw [if_pos hp] at h
      cases h
      simp only [List.length_drop, List.length_cons]
      omega
    · rw [if_neg hp] at h
      rcases Option.map_eq_some'.mp h with ⟨⟨pre', post'⟩, hfs, heq⟩
      cases heq
      have := ih pre' post' hfs
      simp only [List.length_cons]
      omega

/-- Python str.split(sep) for a nonempty separator `c :: cs`, with explicit
fuel so that the recursion is structural (and hence computes inside the
kernel). `s.length` fuel always suffices, since every found separator
consumes at least one character. -/
def pySplitFuel (c : Char) (cs : List Char) : Nat → List Char → List (List Char)
  | 0, s => [s]
  | fuel + 1, s =>
    match findSplit c cs s with
    | none => [s]
    | some (pre, post) => pre :: pySplitFuel c cs fuel post

/-- Python str.split(sep) for a nonempty separator `c :: cs`:
split on every non-overlapping occurrence, keeping empty parts. -/
def pySplitCh (c : Char) (cs : List Char) (s : List Char) : List (List Char) :=
  pySplitFuel c cs s.length s

theorem pySplitFuel_congr (c : Char) (cs : List Char) :
    ∀ (fuel1 fuel2 : Nat) (s : List Char),
      s.length ≤ fuel1 → s.length ≤ fuel2 →
      pySplitFuel c cs fuel1 s = pySplitFuel c cs fuel2 s := by
  intro fuel1
  induction fuel1 with
  | zero =>
    intro fuel2 s h1 _
    have hs : s = [] := List.length_eq_zero.mp (Nat.le_zero.mp h1)
    subst hs
    cases fuel2 with
    | zero => rfl
    | succ m => simp [pySplitFuel, findSplit]
  | succ n ih =>
    intro fuel2 s h1 h2
    cases fuel2 with
    | zero =>
      have hs : s = [] := List.length_eq_zero.mp (Nat.le_zero.mp h2)
      subst hs
      simp [pySplitFuel, findSplit]
    | succ m =>
      simp only [pySplitFuel]
      cases hfs : findSplit c cs s with
      | none => rfl
      | some pr =>
        obtain ⟨pre, post⟩ := pr
        have hlt := findSplit_post_lt c cs s pre post hfs
        exact congrArg (pre :: ·) (ih m post (by omega) (by omega))

theorem pySplitCh_eq (c : Char) (cs : List Char) (s : List Char) :
    pySplitCh c cs s =
      match findSplit c cs s with
      | none => [s]
      | some (pre, post) => pre :: pySplitCh c cs post := by
  unfold pySplitCh
  cases s with
  | nil => simp [pySplitFuel, findSplit]
  | cons a rest =>
    simp only [List.length_cons, pySplitFuel]
    cases hfs : findSplit c cs (a :: rest) with
    | none => rfl
    | some pr =>
      obtain ⟨pre, post⟩ := pr
      have hlt := findSplit_post_lt c cs (a :: rest) pre post hfs
      simp only [List.length_cons] at hlt
      exact congrArg (pre :: ·)
        (pySplitFuel_congr c cs rest.length post.length post (by omega) (Nat.le_refl _))

/-- Python str.split(sep) on strings. Python raises on an empty separator;
the code under verification only ever splits on nonempty separators, for
which the `[]` case below is unreachable. -/
def pySplit (sep : String) (s : String) : List String :=
  match sep.data with
  | [] => [s]
  | c :: cs => (pySplitCh c cs s.data).map String.mk

theorem pySplitCh_ne_nil (c : Char) (cs : List Char) (s : List Char) :
    pySplitCh c cs s ≠ [] := by
  rw [pySplitCh_eq]
  split <;> simp

theorem pySplit_ne_nil (sep s : String) : pySplit sep s ≠ [] := by
  rw [pySplit]
  match h : sep.data with
  | [] => simp
  | c :: cs => simpa using pySplitCh_ne_nil c cs s.data

theorem findSplit_none_of_not_mem (c : Char) (s : List Char)
    (h : ∀ a ∈ s, a ≠ c) : findSplit c [] s = none := by
  induction s with
  | nil => rfl
  | cons a rest ih =>
    have ha : a ≠ c := h a (by simp)
    rw [findSplit]
    have hp : isPrefixList (c :: []) (a :: rest) = false := by
      simp [isPrefixList, beq_iff_eq]
      intro hc
      exact absurd hc.symm ha
    rw [hp]
    simp only [Bool.false_eq_true, if_false]
    rw [ih (fun x hx => h x (by simp [hx]))]
    rfl

/-- On a string with no occurrence of a single-character separator,
Python split returns the whole string as the only part. -/
theorem pySplit_single (sep : Char) (s : String)
    (h : ∀ a ∈ s.data, a ≠ sep) :
    pySplit (String.mk [sep]) s = [s] := by
  rw [pySplit]
  simp only
  rw [pySplitCh_eq, findSplit_none_of_not_mem sep s.data h]
  rfl

/-- Python dict insertion: overwrite the value in place when the key is
already present (keeping its position), else append the new pair. -/
def dictInsert {α : Type} (d : List (String × α)) (k : String) (v : α) : List (String × α) :=
  if d.any (fun e => e.1 == k) then
    d.map (fun e => if e.1 == k then (k, v) else e)
  else d ++ [(k, v)]

/-! ## OSD decoding (src/pytesseract.py, OSD_KEYS / is_valid / osd_to_dict) -/

/-- The Python target type of an OSD value (int, float or str). -/
inductive PyType
  | pint
  | pfloat
  | pstr
deriving DecidableEq, Repr

/-- The OSD_KEYS table: recognized label, output field name, target type. -/
def OSD_KEYS : List (String × String × PyType) :=
  [("Page number", "page_num", .pint),
   ("Orientation in degrees", "orientation", .pint),
   ("Rotate", "rotate", .pint),
   ("Orientation confidence", "orientation_conf", .pfloat),
   ("Script", "script", .pstr),
   ("Script confidence", "script_conf", .pfloat)]

/-- Python dict lookup OSD_KEYS[k], as an option. -/
def osdLookup (k : String) : Option (String × PyType) :=
  (OSD_KEYS.find? (fun e => e.1 == k)).map (fun e => e.2)

/-- Consume a run of decimal digits with single underscores allowed between
digits, after the first digit has been consumed. Returns the rest. -/
def digitsAfter : List Char → List Char
  | '_' :: c :: rest => if c.isDigit then digitsAfter rest else '_' :: c :: rest
  | c :: rest => if c.isDigit then digitsAfter rest else c :: rest
  | [] => []

/-- Consume `digit ( underscore? digit )*`; none if no leading digit. -/
def digitsRun : List Char → Option (List Char)
  | c :: rest => if c.isDigit then some (digitsAfter rest) else none
  | [] => none

/-- Consume the mantissa of a Python float literal:
`digits [ . [digits] ]` or `. digits`. -/
def parseMantissa (l : List Char) : Option (List Char) :=
  match digitsRun l with
  | some rest =>
    match rest with
    | '.' :: rest2 =>
      match digitsRun rest2 with
      | some rest3 => some rest3
      | none => some rest2
    | _ => some rest
  | none =>
    match l with
    | '.' :: rest2 => digitsRun rest2
    | _ => none

/-- Consume an optional exponent `e [sign] digits`. -/
def parseExp : List Char → Option (List Char)
  | 'e' :: rest =>
    (match rest with
     | '+' :: r => digitsRun r
     | '-' :: r => digitsRun r
     | r => digitsRun r)
  | l => some l

/-- Whether Python float(s) succeeds: optional whitespace and sign, then
inf / infinity / nan (case insensitive) or a float literal. -/
def pyFloatValid (s : String) : Bool :=
  let l := ((s.data.dropWhile pyIsSpaceB).reverse.dropWhile pyIsSpaceB).reverse.map Char.toLower
  let l := match l with
    | '+' :: r => r
    | '-' :: r => r
    | r => r
  if l = ['i', 'n', 'f'] || l = ['i', 'n', 'f', 'i', 'n', 'i', 't', 'y'] ||
     l = ['n', 'a', 'n'] then true
  else
    match parseMantissa l with
    | some rest =>
      match parseExp rest with
      | some [] => true
      | _ => false
    | none => false

/-- is_valid from the source: int needs isdigit, float needs float() to
succeed, str always valid. -/
def is_valid (val : String) (t : PyType) : Bool :=
  match t with
  | .pint => pyIsdigit val
  | .pfloat => pyFloatValid val
  | .pstr => true

/-- A decoded OSD value. Floats are kept as their source text, since the
claims never inspect a float's numeric value. -/
inductive OsdV
  | vint (n : Int)
  | vfloat (raw : String)
  | vstr (s : String)
deriving DecidableEq, Repr

/-- The conversion OSD_KEYS[k][1](value) applied to a valid value. -/
def osdConvert (t : PyType) (v : String) : OsdV :=
  match t with
  | .pint => .vint (pyInt v)
  | .pfloat => .vfloat v
  | .pstr => .vstr v

/-- One step of the dict comprehension in osd_to_dict, for one line already
split on ": ". A two-element line whose label is not in OSD_KEYS raises
KeyError (the subscript OSD_KEYS[kv[0]] inside the filter condition). -/
def osdStep (acc : List (String × OsdV)) (kv : List String) : Except Err (List (String × OsdV)) :=
  match kv with
  | [k, v] =>
    match osdLookup k with
    | none => .error .keyErr
    | some (nm, t) => if is_valid v t then .ok (dictInsert acc nm (osdConvert t v)) else .ok acc
  | _ => .ok acc

/-- osd_to_dict from the source: split the OSD text into lines, split each
line on ": ", and build the dict from recognized, valid label-value pairs. -/
def osd_to_dict (osd : String) : Except Err (List (String × OsdV)) :=
  ((pySplit "\n" osd).map (fun line => pySplit ": " line)).foldlM osdStep []

/-- The entry contributed by one split line, in the words of the claim:
only a line of the form label-colon-space-value with a recognized label and
a value that parses at the label's target type contributes. -/
def osdLineEntry (kv : List String) : Option (String × OsdV) :=
  match kv with
  | [k, v] => (osdLookup k).bind (fun e => if is_valid v e.2 then some (e.1, osdConvert e.2 v) else none)
  | _ => none

/-- A split line that does not raise KeyError: either it is not a
two-element label-value pair, or its label is recognized. -/
def osdGoodLine (kv : List String) : Bool :=
  match kv with
  | [k, _] => (osdLookup k).isSome
  | _ => true

/-! ## TSV table decoding (src/pytesseract.py, file_to_dict) -/

/-- A decoded table cell: Python int or str. -/
inductive Cell
  | cint (n : Int)
  | cstr (s : String)
deriving DecidableEq, Repr

/-- Cell coercion from file_to_dict: an all-digit cell in a column other
than the resolved free-text column becomes an int, else stays a string. -/
def coerceCell (i : Nat) (strIdx : Int) (v : String) : Cell :=
  if pyIsdigit v ∧ (i : Int) ≠ strIdx then .cint (pyInt v) else .cstr v

/-- The column list built for header position `i`: rows too short to have
an i-th cell are skipped (the `continue`), other cells are coerced. -/
def colFor (rows : List (List String)) (i : Nat) (strIdx : Int) : List Cell :=
  rows.filterMap (fun row =>
    if row.length ≤ i then none else some (coerceCell i strIdx (row.getD i "")))

/-- The result dict of file_to_dict: one insertion per header position, in
header order (a duplicated header name is overwritten in place). -/
def buildCols (header : List String) (rows : List (List String)) (strIdx : Int) :
    List (String × List Cell) :=
  (header.enum).foldl (fun acc e => dictInsert acc e.2 (colFor rows e.1 strIdx)) []

/-- file_to_dict from the source. Splitting the input on newlines always
yields at least one row, so the `if not rows` guard is unreachable; the
header is popped, and indexing rows[-1] raises IndexError when no data row
remains. A short last data row is padded with one empty string. -/
def file_to_dict (tsv cell_delimiter : String) (str_col_idx : Int) :
    Except Err (List (String × List Cell)) :=
  let rows := (pySplit "\n" tsv).map (fun row => pySplit cell_delimiter row)
  match rows with
  | [] => .ok []
  | header :: rest =>
    match rest.getLast? with
    | none => .error .indexErr
    | some last =>
      let rows2 := if last.length < header.length then rest.dropLast ++ [last ++ [""]] else rest
      let idx := if str_col_idx < 0 then str_col_idx + (header.length : Int) else str_col_idx
      .ok (buildCols header rows2 idx)

/-! ## Lemmas about osd_to_dict -/

theorem osdStep_of_bad (acc : List (String × OsdV)) (kv : List String)
    (h : osdGoodLine kv = false) : osdStep acc kv = .error Err.keyErr := by
  rcases kv with _ | ⟨k, _ | ⟨v, _ | ⟨w, ws⟩⟩⟩ <;> simp [osdGoodLine] at h
  rw [osdStep]
  rcases hl : osdLookup k with _ | e
  · rfl
  · rw [hl] at h
    simp at h

theorem osdStep_error_eq (acc : List (String × OsdV)) (kv : List String) (e : Err)
    (h : osdStep acc kv = .error e) : e = Err.keyErr := by
  rcases kv with _ | ⟨k, _ | ⟨v, _ | ⟨w, ws⟩⟩⟩ <;> simp [osdStep] at h
  rcases hl : osdLookup k with _ | nt
  · rw [hl] at h
    cases h
    rfl
  · rw [hl] at h
    rcases nt with ⟨nm, t⟩
    by_cases hv : is_valid v t = true <;> simp [hv] at h

theorem osdFold_ok (kvs : List (List String)) :
    ∀ acc : List (String × OsdV),
      (∀ kv ∈ kvs, osdGoodLine kv = true) →
      kvs.foldlM osdStep acc =
        .ok ((kvs.filterMap osdLineEntry).foldl (fun a e => dictInsert a e.1 e.2) acc) := by
  induction kvs with
  | nil => intro acc _; rfl
  | cons kv rest ih =>
    intro acc h
    have hkv : osdGoodLine kv = true := h kv (by simp)
    have hrest : ∀ kv ∈ rest, osdGoodLine kv = true := fun x hx => h x (by simp [hx])
    rcases kv with _ | ⟨k, _ | ⟨v, _ | ⟨w, ws⟩⟩⟩
    · simpa [osdStep, osdLineEntry] using ih acc hrest
    · simpa [osdStep, osdLineEntry] using ih acc hrest
    · rw [osdGoodLine] at hkv
      rcases hl : osdLookup k with _ | nt
      · rw [hl] at hkv
        simp at hkv
      · rcases nt with ⟨nm, t⟩
        by_cases hv : is_valid v t = true
        · have := ih (dictInsert acc nm (osdConvert t v)) hrest
          simpa [osdStep, osdLineEntry, hl, hv] using this
        · have := ih acc hrest
          simpa [osdStep, osdLineEntry, hl, hv] using this
    · simpa [osdStep, osdLineEntry] using ih acc hrest

theorem osdFold_err (kvs : List (List String)) :
    ∀ acc : List (String × OsdV),
      (∃ kv ∈ kvs, osdGoodLine kv = false) →
      kvs.foldlM osdStep acc = .error Err.keyErr := by
  induction kvs with
  | nil => intro acc h; simp at h
  | cons kv rest ih =>
    intro acc h
    rcases h with ⟨kv', hmem, hbad⟩
    rcases List.mem_cons.mp hmem with heq | hin
    · subst heq
      have := osdStep_of_bad acc kv' hbad
      simp [List.foldlM_cons, this]
      rfl
    · cases hstep : osdStep acc kv with
      | error e =>
        have he := osdStep_error_eq acc kv e hstep
        subst he
        simp [List.foldlM_cons, hstep]
        rfl
      | ok acc' =>
        have := ih acc' ⟨kv', hin, hbad⟩
        simpa [List.foldlM_cons, hstep] using this

/-- Counterexample to claim C1 as stated: a line whose label is
unrecognized but which still contains a single ": " separator is not
silently dropped; the dict comprehension's subscript OSD_KEYS[kv[0]]
raises a KeyError. -/
theorem osd_to_dict_unrecognized_label_raises :
    osd_to_dict "Foo: bar" = .error Err.keyErr := rfl

/-- Claim C1 (amended): osd_to_dict builds its mapping only from lines that
split on ": " into exactly a recognized label and a value that parses at the
label's declared target type; lines that do not split into exactly two
parts, and recognized-label lines whose value fails to parse, are silently
dropped — but a line that does split into two parts with an unrecognized
label raises KeyError rather than being dropped. On the input
"Orientation in degrees: 90\nGarbage line\n" it yields exactly the mapping
orientation to the integer 90, dropping the garbage line. -/
theorem osd_to_dict_amended :
    (∀ osd : String,
      (∀ kv ∈ (pySplit "\n" osd).map (fun line => pySplit ": " line), osdGoodLine kv = true) →
      osd_to_dict osd =
        .ok ((((pySplit "\n" osd).map (fun line => pySplit ": " line)).filterMap
               osdLineEntry).foldl (fun a e => dictInsert a e.1 e.2) [])) ∧
    (∀ osd : String,
      (∃ kv ∈ (pySplit "\n" osd).map (fun line => pySplit ": " line), osdGoodLine kv = false) →
      osd_to_dict osd = .error Err.keyErr) ∧
    osd_to_dict "Orientation in degrees: 90\nGarbage line\n" = .ok [("orientation", OsdV.vint 90)] :=
  ⟨fun _osd h => osdFold_ok _ [] h, fun _osd h => osdFold_err _ [] h, rfl⟩

/-- Witness for the amended C1 theorem at the claim's concrete input. -/
theorem osd_to_dict_amended_witness :
    osd_to_dict "Orientation in degrees: 90\nGarbage line\n" =
      .ok ((((pySplit "\n" "Orientation in degrees: 90\nGarbage line\n").map
              (fun line => pySplit ": " line)).filterMap osdLineEntry).foldl
            (fun a e => dictInsert a e.1 e.2) []) :=
  osd_to_dict_amended.1 "Orientation in degrees: 90\nGarbage line\n" (by decide)

/-! ## Lemmas about file_to_dict -/

theorem dictInsert_eq_append {α : Type} (d : List (String × α)) (k : String) (v : α)
    (h : ∀ e ∈ d, e.1 ≠ k) : dictInsert d k v = d ++ [(k, v)] := by
  have hfalse : d.any (fun e => e.1 == k) = false := by
    rw [List.any_eq_false]
    intro e he
    simpa using h e he
  simp [dictInsert, hfalse]

theorem foldl_dictInsert_eq_append {α β : Type} (f : β × String → α) :
    ∀ (l : List (β × String)) (acc : List (String × α)),
      (l.map Prod.snd).Nodup →
      (∀ e ∈ l, ∀ q ∈ acc, q.1 ≠ e.2) →
      l.foldl (fun a e => dictInsert a e.2 (f e)) acc = acc ++ l.map (fun e => (e.2, f e)) := by
  intro l
  induction l with
  | nil => intro acc _ _; simp
  | cons e rest ih =>
    intro acc hnd hdisj
    simp only [List.foldl_cons]
    rw [dictInsert_eq_append acc e.2 (f e) (fun q hq => hdisj e (by simp) q hq)]
    rw [List.map_cons] at hnd
    have hnd2 := List.nodup_cons.mp hnd
    have hnd' : (rest.map Prod.snd).Nodup := hnd2.2
    have hmem : e.2 ∉ rest.map Prod.snd := hnd2.1
    have hdisj' : ∀ x ∈ rest, ∀ q ∈ acc ++ [(e.2, f e)], q.1 ≠ x.2 := by
      intro x hx q hq
      rcases List.mem_append.mp hq with hq1 | hq2
      · exact hdisj x (by simp [hx]) q hq1
      · have : q = (e.2, f e) := by simpa using hq2
        subst this
        intro hc
        have hc2 : e.2 = x.2 := hc
        apply hmem
        rw [hc2]
        exact List.mem_map_of_mem Prod.snd hx
    rw [ih (acc ++ [(e.2, f e)]) hnd' hdisj']
    simp

theorem buildCols_eq_map (header : List String) (rows : List (List String)) (idx : Int)
    (hnd : header.Nodup) :
    buildCols header rows idx = header.enum.map (fun e => (e.2, colFor rows e.1 idx)) := by
  unfold buildCols
  rw [foldl_dictInsert_eq_append (fun e => colFor rows e.1 idx) header.enum []
      (by simpa [List.enum_map_snd] using hnd) (by simp)]
  simp

theorem colFor_eq_get (rows : List (List String)) (i : Nat) (idx : Int) :
    colFor rows i idx = rows.filterMap (fun row => (row.get? i).map (coerceCell i idx)) := by
  unfold colFor
  congr 1
  funext row
  cases hg : row.get? i with
  | none =>
    have hle : row.length ≤ i := List.get?_eq_none.mp hg
    simp [hle]
  | some v =>
    have hlt : ¬ row.length ≤ i := by
      intro hle
      rw [List.get?_eq_none.mpr hle] at hg
      cases hg
    have hg2 : row[i]? = some v := by
      rw [← List.get?_eq_getElem?]
      exact hg
    simp [hlt, List.getD, hg2]

/-- Claim C6: on a tab-separated table whose first line is the header and
which has at least one data row (and pairwise distinct column names), the
result maps each column name to the ordered cells of that column; the last
data row, when one cell short of the header, is padded with one trailing
empty string; a cell becomes an int exactly when it is all-digits and its
column index differs from the text-column index, a negative text-column
index being resolved from the end of the header. -/
theorem file_to_dict_table_C6 (tsv delim : String) (idx : Int)
    (header last : List String) (dataRows : List (List String))
    (hsplit : (pySplit "\n" tsv).map (fun r => pySplit delim r) = header :: dataRows)
    (hlast : dataRows.getLast? = some last)
    (hnodup : header.Nodup) :
    file_to_dict tsv delim idx =
      .ok (header.enum.map (fun e =>
        (e.2,
         (if last.length < header.length then dataRows.dropLast ++ [last ++ [""]]
          else dataRows).filterMap
           (fun row => (row.get? e.1).map
             (coerceCell e.1 (if idx < 0 then idx + (header.length : Int) else idx)))))) := by
  unfold file_to_dict
  rw [hsplit]
  simp only [hlast]
  rw [buildCols_eq_map _ _ _ hnodup]
  simp only [colFor_eq_get]

/-- Witness for the C6 theorem on a concrete two-column table: the
all-digit cell in the non-text column is coerced to int, the all-digit
cell in the resolved text column (index -1, i.e. the last column) stays a
string. -/
theorem file_to_dict_table_C6_witness :
    file_to_dict "a\tb\n1\t2" "\t" (-1) = .ok [("a", [Cell.cint 1]), ("b", [Cell.cstr "2"])] :=
  (file_to_dict_table_C6 "a\tb\n1\t2" "\t" (-1) ["a", "b"] ["1", "2"] [["1", "2"]]
    (by decide) (by decide) (by decide)).trans rfl

/-- Claim C10: a single-line input (header row only, no newline) makes
file_to_dict raise IndexError: after the header is popped the row list is
empty and rows[-1] indexes an empty list; and the preceding emptiness guard
can never fire, because splitting any string on newlines yields at least
one element. -/
theorem file_to_dict_header_only_C10 (tsv delim : String) (idx : Int)
    (h : tsv.data.all (fun c => c ≠ '\n') = true) :
    file_to_dict tsv delim idx = .error Err.indexErr ∧
    ∀ s : String, pySplit "\n" s ≠ [] := by
  constructor
  · have hcs : ∀ a ∈ tsv.data, a ≠ '\n' := by
      intro a ha
      have := List.all_eq_true.mp h a ha
      simpa using this
    have hs : pySplit "\n" tsv = [tsv] := pySplit_single '\n' tsv hcs
    unfold file_to_dict
    rw [hs]
    rfl
  · exact fun s => pySplit_ne_nil "\n" s

/-- Witness for the C10 theorem at a concrete header-only input. -/
theorem file_to_dict_header_only_C10_witness :
    file_to_dict "level\tconf" "\t" (-1) = .error Err.indexErr :=
  (file_to_dict_header_only_C10 "level\tconf" "\t" (-1) (by decide)).1

/-! ## shlex.split and the run_tesseract command line -/

/-- The lexer state of Python shlex in POSIX mode: outside quotes, inside
single quotes, or inside double quotes. -/
inductive ShMode
  | normal
  | single
  | double
deriving DecidableEq, Repr

/-- The whitespace characters of shlex (shlex.whitespace). -/
def shlexWhitespace (c : Char) : Bool := c = ' ' || c = '\t' || c = '\r' || c = '\n'

/-- Python shlex in POSIX mode with whitespace_split, as used by
shlex.split: whitespace separates tokens, single quotes are literal,
double quotes allow backslash-escaping of the double quote and the
backslash, a backslash outside quotes escapes the next character, and an
unterminated quote or trailing escape raises ValueError.
Arguments: mode, pending-escape flag, whether a token is in progress, the
current token (reversed), the completed tokens, the remaining input. -/
def shlexGo : ShMode → Bool → Bool → List Char → List (List Char) → List Char →
    Except Err (List (List Char))
  | .normal, false, hasTok, tok, acc, [] =>
    .ok (if hasTok then acc ++ [tok.reverse] else acc)
  | _, true, _, _, _, [] => .error (.valueErr "No escaped character")
  | .single, false, _, _, _, [] => .error (.valueErr "No closing quotation")
  | .double, false, _, _, _, [] => .error (.valueErr "No closing quotation")
  | mode, true, _, tok, acc, ch :: rest =>
    (match mode with
     | .double =>
       if ch = '"' || ch = '\\' then shlexGo .double false true (ch :: tok) acc rest
       else shlexGo .double false true (ch :: '\\' :: tok) acc rest
     | m => shlexGo m false true (ch :: tok) acc rest)
  | .normal, false, hasTok, tok, acc, ch :: rest =>
    if shlexWhitespace ch then
      if hasTok then shlexGo .normal false false [] (acc ++ [tok.reverse]) rest
      else shlexGo .normal false false [] acc rest
    else if ch = '\\' then shlexGo .normal true true tok acc rest
    else if ch = '\'' then shlexGo .single false true tok acc rest
    else if ch = '"' then shlexGo .double false true tok acc rest
    else shlexGo .normal false true (ch :: tok) acc rest
  | .single, false, _, tok, acc, ch :: rest =>
    if ch = '\'' then shlexGo .normal false true tok acc rest
    else shlexGo .single false true (ch :: tok) acc rest
  | .double, false, _, tok, acc, ch :: rest =>
    if ch = '"' then shlexGo .normal false true tok acc rest
    else if ch = '\\' then shlexGo .double true true tok acc rest
    else shlexGo .double false true (ch :: tok) acc rest

/-- Python shlex.split. -/
def shlex_split (s : String) : Except Err (List String) :=
  (shlexGo .normal false false [] [] s.data).map (fun l => l.map String.mk)

/-- The command line built by run_tesseract (src/pytesseract.py lines
301-315): optional nice prefix when not on win32 and nice is nonzero, the
tesseract command, input path, output base, the language flag when a
language is given, the shell-split config when nonempty, and the extension
as a trailing token unless it is empty or one of box/osd/tsv. -/
def build_cmd_args (platform tesseract_cmd input_filename output_filename_base extension : String)
    (lang : Option String) (cfg : String) (nice : Int) : Except Err (List String) :=
  let a0 : List String :=
    if ¬ pyStartswith platform "win32" = true ∧ nice ≠ 0 then ["nice", "-n", toString nice] else []
  let a1 := a0 ++ [tesseract_cmd, input_filename, output_filename_base]
  let a2 := a1 ++ (match lang with | some l => ["-l", l] | none => [])
  match (if cfg ≠ "" then (shlex_split cfg).map (fun t => a2 ++ t) else .ok a2) with
  | .error e => .error e
  | .ok a3 =>
    .ok (if extension ≠ "" ∧ ¬ (extension = "box" ∨ extension = "osd" ∨ extension = "tsv") then
           a3 ++ [extension]
         else a3)

/-- The argument list claim C3 predicts: the trailing output-selector token
is omitted only for box, osd and tsv. -/
def claimedArgsC3 (platform tesseract_cmd input_filename output_filename_base extension : String)
    (lang : Option String) (toks : List String) (nice : Int) : List String :=
  (if ¬ pyStartswith platform "win32" = true ∧ nice ≠ 0 then ["nice", "-n", toString nice] else []) ++
  [tesseract_cmd, input_filename, output_filename_base] ++
  (match lang with | some l => ["-l", l] | none => []) ++
  toks ++
  (if extension = "box" ∨ extension = "osd" ∨ extension = "tsv" then [] else [extension])

/-- Counterexample to claim C3 as stated: with an empty extension (the
default of run_and_get_output) the code appends no trailing selector
token, while the claim predicts the extension token is appended for every
extension other than box, osd and tsv. -/
theorem run_tesseract_args_empty_extension_cex :
    build_cmd_args "linux" "tesseract" "in.png" "outbase" "" none "" 0 =
      .ok ["tesseract", "in.png", "outbase"] ∧
    claimedArgsC3 "linux" "tesseract" "in.png" "outbase" "" none [] 0 =
      ["tesseract", "in.png", "outbase", ""] ∧
    ("" : String) ≠ "box" ∧ ("" : String) ≠ "osd" ∧ ("" : String) ≠ "tsv" ∧
    (["tesseract", "in.png", "outbase"] : List String) ≠ ["tesseract", "in.png", "outbase", ""] :=
  ⟨rfl, rfl, by decide, by decide, by decide, by decide⟩

/-- Claim C3 (amended): the constructed argument list is exactly the
optional nice prefix (omitted on win32 or when nice is zero), the engine
executable, input path and output base, then the language flag when given,
then the shell-split config tokens, then the extension as a trailing
output-selector token — omitted when the extension is box, osd, tsv, or
empty. -/
theorem run_tesseract_args_amended (platform cmd inp outb ext : String) (lang : Option String)
    (cfg : String) (nice : Int) (toks : List String)
    (hsh : shlex_split cfg = .ok toks) :
    build_cmd_args platform cmd inp outb ext lang cfg nice =
      .ok ((if ¬ pyStartswith platform "win32" = true ∧ nice ≠ 0 then
              ["nice", "-n", toString nice] else []) ++
           [cmd, inp, outb] ++
           (match lang with | some l => ["-l", l] | none => []) ++
           toks ++
           (if ext = "" ∨ ext = "box" ∨ ext = "osd" ∨ ext = "tsv" then [] else [ext])) := by
  unfold build_cmd_args
  by_cases hext : ext = "" ∨ ext = "box" ∨ ext = "osd" ∨ ext = "tsv"
  · have hno : ¬ (ext ≠ "" ∧ ¬ (ext = "box" ∨ ext = "osd" ∨ ext = "tsv")) := by tauto
    by_cases hc : cfg = ""
    · subst hc
      obtain rfl : toks = [] := (Except.ok.inj hsh).symm
      simp [hno, hext]
      tauto
    · simp [hc, hsh, hno, hext, Except.map]
      tauto
  · push_neg at hext
    obtain ⟨h1, h2, h3, h4⟩ := hext
    by_cases hc : cfg = ""
    · subst hc
      obtain rfl : toks = [] := (Except.ok.inj hsh).symm
      simp [h1, h2, h3, h4]
    · simp [hc, hsh, h1, h2, h3, h4, Except.map]

/-- Witness for the amended C3 theorem: a concrete invocation with a
language, a two-token config and the pdf extension. -/
theorem run_tesseract_args_amended_witness :
    build_cmd_args "linux" "tesseract" "in.png" "outbase" "pdf" (some "eng") "--psm 6" 2 =
      .ok ["nice", "-n", "2", "tesseract", "in.png", "outbase", "-l", "eng", "--psm", "6", "pdf"] :=
  (run_tesseract_args_amended "linux" "tesseract" "in.png" "outbase" "pdf" (some "eng")
    "--psm 6" 2 ["--psm", "6"] rfl).trans rfl

/-! ## Process execution, the timeout manager, temp files and cleanup -/

/-- Behavior of one spawned tesseract process: how long it runs before it
would exit naturally, its natural exit code, and its stderr output. -/
structure ProcSpec where
  duration : Nat
  exitCode : Int
  stderrOut : String
deriving DecidableEq, Repr

/-- Python str.splitlines restricted to the line breaks \r\n, \r, \n,
\x0b and \x0c (first argument: current line, reversed). -/
def pySplitlinesCh : List Char → List Char → List (List Char)
  | acc, [] => if acc.isEmpty then [] else [acc.reverse]
  | acc, '\r' :: '\n' :: rest => acc.reverse :: pySplitlinesCh [] rest
  | acc, c :: rest =>
    if c = '\n' || c = '\r' || c = '\x0b' || c = '\x0c' then
      acc.reverse :: pySplitlinesCh [] rest
    else pySplitlinesCh (c :: acc) rest

/-- get_errors from the source: decode stderr, join its lines with single
spaces and strip the result. -/
def get_errors (error_string : String) : String :=
  pyStrip (String.intercalate " " ((pySplitlinesCh [] error_string.data).map String.mk))

/-- The observable outcome of run_tesseract's process phase under
timeout_manager: whether a countdown timer was started, whether the timer
fired and killed the process, the final returncode, whether the timer was
cancelled, whether the process handle was reaped (communicate returned),
how long the caller waited, whether the std handles were closed, and the
overall result. -/
structure RunOutcome where
  timerStarted : Bool
  killed : Bool
  finalReturncode : Int
  timerCancelled : Bool
  reaped : Bool
  waitTime : Nat
  handlesClosed : Bool
  result : Except Err Unit
deriving Repr

/-- timeout_manager (lines 177-198) combined with the body of
run_tesseract's `with` block (lines 324-326). A zero timeout takes the
`if not seconds` branch: plain communicate, no timer, no sentinel check.
With a positive timeout a timer is started; if it fires before the
natural exit it kills the process and sets returncode to the sentinel -1,
communicate then returns, the body raises TesseractError on the nonzero
returncode, and the timeout_manager finally-block cancels the timer and,
seeing the sentinel returncode, replaces the exception with
RuntimeError('Tesseract process timeout'). When the process exits in
time the timer is cancelled; a natural exit code equal to the sentinel
would also be reported as the timeout RuntimeError. All standard handles
are closed on every path. -/
def run_proc_with_timeout (proc : ProcSpec) (timeout : Nat) : RunOutcome :=
  if timeout = 0 then
    { timerStarted := false, killed := false, finalReturncode := proc.exitCode,
      timerCancelled := false, reaped := true, waitTime := proc.duration,
      handlesClosed := true,
      result := if proc.exitCode ≠ 0 then
          .error (.tessErr proc.exitCode (get_errors proc.stderrOut))
        else .ok () }
  else if timeout < proc.duration then
    { timerStarted := true, killed := true, finalReturncode := -1,
      timerCancelled := true, reaped := true, waitTime := timeout,
      handlesClosed := true, result := .error .timeoutRuntime }
  else
    { timerStarted := true, killed := false, finalReturncode := proc.exitCode,
      timerCancelled := true, reaped := true, waitTime := proc.duration,
      handlesClosed := true,
      result := if proc.exitCode = -1 then .error .timeoutRuntime
        else if proc.exitCode ≠ 0 then
          .error (.tessErr proc.exitCode (get_errors proc.stderrOut))
        else .ok () }

/-- How the operating system responds to remove() for a given file:
success, ENOENT (the file already vanished), or another OSError errno. -/
inductive DelBehavior
  | delOk
  | delEnoent
  | delFail (errno : Nat)
deriving DecidableEq, Repr

/-- Whether a deletion behavior is a non-ENOENT failure. -/
def DelBehavior.isFail : DelBehavior → Bool
  | .delFail _ => true
  | _ => false

/-- A file visible in the temp directory, with its deletion behavior. -/
structure FSFile where
  name : String
  del : DelBehavior
deriving DecidableEq, Repr

/-- The loop of cleanup (lines 217-224): iterate over the files matching
the temp name plus wildcard, remove each, treat an ENOENT as a no-op
(the file is gone either way), and propagate any other OSError, leaving
the remaining files untouched. Returns the raised errno, if any, and the
files that remain. -/
def cleanupRun (base : String) : List FSFile → Option Nat × List FSFile
  | [] => (none, [])
  | f :: rest =>
    if pyStartswith f.name base then
      match f.del with
      | .delOk => cleanupRun base rest
      | .delEnoent => cleanupRun base rest
      | .delFail e => (some e, rest)
    else
      let r := cleanupRun base rest
      (r.1, f :: r.2)

/-- cleanup (lines 217-224): with an empty temp name the glob pattern is
the empty string and matches nothing; otherwise the wildcard pattern
matches exactly the files whose name starts with the temp name (the
generated temp names contain no glob metacharacters). -/
def cleanup_model (base : String) (fs : List FSFile) : Option Nat × List FSFile :=
  if base = "" then (none, fs) else cleanupRun base fs

/-- The string branch of save (lines 254-267): NamedTemporaryFile creates
the base file itself; a caller-supplied path is passed through
normcase/normpath/realpath (modelled by the parameter `canon`, which
keeps denoting the same file) and no temp input file is created. Returns
the yielded pair (temp base name, input filename) and the files save
itself created. -/
def save_path_model (canon : String → String) (base p : String) :
    (String × String) × List FSFile :=
  ((base, canon p), [FSFile.mk base .delOk])

/-- The outcome of one run_and_get_output call: the process outcome, the
overall result, and the final temp-directory contents. -/
structure PipeOut where
  run : RunOutcome
  result : Except Err Unit
  fsFinal : List FSFile
deriving Repr

/-- run_and_get_output (lines 329-354) for an in-memory image, up to the
point where the output file would be read: save creates the temp base
file and the saved input image base.ext, run_tesseract runs under
timeout_manager, the engine leaves behind files rooted at the base name,
and the save context manager's finally-block always runs cleanup. An
error raised by cleanup replaces the body's outcome, as in Python.
Reading the output file bytes on success is not modelled here, since no
claim depends on it. -/
def run_and_get_output_model (fs0 : List FSFile) (base ext : String)
    (engineFiles : List FSFile) (proc : ProcSpec) (timeout : Nat) : PipeOut :=
  { run := run_proc_with_timeout proc timeout,
    result :=
      match (cleanup_model base
              (fs0 ++ [FSFile.mk base .delOk, FSFile.mk (base ++ "." ++ ext) .delOk] ++ engineFiles)).1 with
      | some e => .error (.osErr e)
      | none => (run_proc_with_timeout proc timeout).result,
    fsFinal := (cleanup_model base
      (fs0 ++ [FSFile.mk base .delOk, FSFile.mk (base ++ "." ++ ext) .delOk] ++ engineFiles)).2 }

theorem isPrefixList_self : ∀ l : List Char, isPrefixList l l = true := by
  intro l
  induction l with
  | nil => rfl
  | cons a rest ih => simp [isPrefixList, ih]

theorem pyStartswith_self (s : String) : pyStartswith s s = true :=
  isPrefixList_self s.data

theorem cleanupRun_all_ok (base : String) :
    ∀ fs : List FSFile,
      (∀ f ∈ fs, pyStartswith f.name base = true → f.del.isFail = false) →
      cleanupRun base fs = (none, fs.filter (fun f => ! pyStartswith f.name base)) := by
  intro fs
  induction fs with
  | nil => intro _; rfl
  | cons f rest ih =>
    intro h
    have hrest : ∀ x ∈ rest, pyStartswith x.name base = true → x.del.isFail = false :=
      fun x hx => h x (by simp [hx])
    rw [cleanupRun]
    by_cases hp : pyStartswith f.name base = true
    · rw [if_pos hp]
      cases hdel : f.del with
      | delOk => rw [ih hrest]; simp [List.filter_cons, hp]
      | delEnoent => rw [ih hrest]; simp [List.filter_cons, hp]
      | delFail e =>
        have := h f (by simp) hp
        rw [hdel] at this
        simp [DelBehavior.isFail] at this
    · rw [if_neg hp, ih hrest]
      have hp2 : pyStartswith f.name base = false := by
        cases hq : pyStartswith f.name base
        · rfl
        · exact absurd hq hp
      simp [List.filter_cons, hp2]

/-- Claim C4: a timeout of 0 means no timeout is enforced: no countdown
timer is started, the process is awaited for its full natural duration,
it is never killed, and no timed-out error is ever raised (the result is
success or a TesseractError, depending only on the exit code). -/
theorem timeout_zero_C4 (proc : ProcSpec) :
    (run_proc_with_timeout proc 0).timerStarted = false ∧
    (run_proc_with_timeout proc 0).killed = false ∧
    (run_proc_with_timeout proc 0).reaped = true ∧
    (run_proc_with_timeout proc 0).waitTime = proc.duration ∧
    (run_proc_with_timeout proc 0).result ≠ .error Err.timeoutRuntime := by
  refine ⟨rfl, rfl, rfl, rfl, ?_⟩
  show (if proc.exitCode ≠ 0 then
          Except.error (.tessErr proc.exitCode (get_errors proc.stderrOut))
        else .ok ()) ≠ .error Err.timeoutRuntime
  by_cases h : proc.exitCode ≠ 0 <;> simp [h]

/-- Claim C2: when a positive timeout elapses before the process exits,
the started timer fires and kills the process, the returncode is set to
the sentinel timeout code -1, the call fails with the timed-out
RuntimeError after the process has been reaped, and cleanup still runs on
this path, so that no file whose name begins with the generated base name
remains afterwards; moreover, on normal completion within any positive
timeout the countdown timer is always cancelled. -/
theorem timeout_elapsed_C2 (fs0 engineFiles : List FSFile) (base ext : String)
    (proc : ProcSpec) (timeout : Nat)
    (hb : base ≠ "")
    (ht : 0 < timeout) (hd : timeout < proc.duration)
    (hdel : ∀ f ∈ fs0 ++ [FSFile.mk base .delOk, FSFile.mk (base ++ "." ++ ext) .delOk] ++ engineFiles,
      pyStartswith f.name base = true → f.del.isFail = false) :
    (run_and_get_output_model fs0 base ext engineFiles proc timeout).run.timerStarted = true ∧
    (run_and_get_output_model fs0 base ext engineFiles proc timeout).run.killed = true ∧
    (run_and_get_output_model fs0 base ext engineFiles proc timeout).run.finalReturncode = -1 ∧
    (run_and_get_output_model fs0 base ext engineFiles proc timeout).run.reaped = true ∧
    (run_and_get_output_model fs0 base ext engineFiles proc timeout).result =
      .error Err.timeoutRuntime ∧
    (∀ f ∈ (run_and_get_output_model fs0 base ext engineFiles proc timeout).fsFinal,
      pyStartswith f.name base = false) ∧
    (∀ proc2 : ProcSpec, (run_proc_with_timeout proc2 timeout).timerCancelled = true) := by
  have hrun : run_proc_with_timeout proc timeout =
      { timerStarted := true, killed := true, finalReturncode := -1, timerCancelled := true,
        reaped := true, waitTime := timeout, handlesClosed := true,
        result := .error .timeoutRuntime } := by
    unfold run_proc_with_timeout
    rw [if_neg (by omega), if_pos hd]
  have hclean : cleanup_model base
      (fs0 ++ [FSFile.mk base .delOk, FSFile.mk (base ++ "." ++ ext) .delOk] ++ engineFiles) =
      (none, (fs0 ++ [FSFile.mk base .delOk, FSFile.mk (base ++ "." ++ ext) .delOk] ++ engineFiles).filter
        (fun f => ! pyStartswith f.name base)) := by
    unfold cleanup_model
    rw [if_neg hb]
    exact cleanupRun_all_ok base _ hdel
  refine ⟨?_, ?_, ?_, ?_, ?_, ?_, ?_⟩
  · show (run_proc_with_timeout proc timeout).timerStarted = true
    rw [hrun]
  · show (run_proc_with_timeout proc timeout).killed = true
    rw [hrun]
  · show (run_proc_with_timeout proc timeout).finalReturncode = -1
    rw [hrun]
  · show (run_proc_with_timeout proc timeout).reaped = true
    rw [hrun]
  · show (match (cleanup_model base
        (fs0 ++ [FSFile.mk base .delOk, FSFile.mk (base ++ "." ++ ext) .delOk] ++ engineFiles)).1 with
      | some e => (Except.error (Err.osErr e) : Except Err Unit)
      | none => (run_proc_with_timeout proc timeout).result) = .error Err.timeoutRuntime
    rw [hclean, hrun]
  · show ∀ f ∈ (cleanup_model base
        (fs0 ++ [FSFile.mk base .delOk, FSFile.mk (base ++ "." ++ ext) .delOk] ++ engineFiles)).2,
      pyStartswith f.name base = false
    rw [hclean]
    intro f hf
    have := List.of_mem_filter hf
    simpa using this
  · intro proc2
    unfold run_proc_with_timeout
    rw [if_neg (by omega)]
    by_cases h2 : timeout < proc2.duration
    · rw [if_pos h2]
    · rw [if_neg h2]

/-- Witness for the C2 theorem: a process that naturally needs 10 units
with a 5-unit timeout; the engine left one output file rooted at the
base name, and nothing with the base-name root survives cleanup. -/
theorem timeout_elapsed_C2_witness :
    (run_and_get_output_model [] "/tmp/tess_w" "PNG" [⟨"/tmp/tess_w.txt", DelBehavior.delOk⟩]
        ⟨10, 0, ""⟩ 5).result = .error Err.timeoutRuntime ∧
    (run_and_get_output_model [] "/tmp/tess_w" "PNG" [⟨"/tmp/tess_w.txt", DelBehavior.delOk⟩]
        ⟨10, 0, ""⟩ 5).run.killed = true ∧
    (run_and_get_output_model [] "/tmp/tess_w" "PNG" [⟨"/tmp/tess_w.txt", DelBehavior.delOk⟩]
        ⟨10, 0, ""⟩ 5).fsFinal = [] := by
  have h := timeout_elapsed_C2 [] [⟨"/tmp/tess_w.txt", DelBehavior.delOk⟩] "/tmp/tess_w" "PNG"
    ⟨10, 0, ""⟩ 5 (by decide) (by decide) (by decide) (by decide)
  exact ⟨h.2.2.2.2.1, h.2.1, rfl⟩

/-- Claim C9: release removes exactly the files whose names begin with
the generated base name — a vanished file (ENOENT) is a no-op while any
other deletion error propagates — and with a string input the caller's
path is used as the input directly (passed through path
canonicalization), the only file save creates is the temp base file
itself (no temp input file), and a caller-owned file, which does not
carry the base-name prefix, survives release. -/
theorem save_cleanup_C9 :
    (∀ (canon : String → String) (base p : String) (fs0 : List FSFile),
      base ≠ "" →
      (∀ f ∈ fs0, pyStartswith f.name base = true → f.del.isFail = false) →
      (save_path_model canon base p).1 = (base, canon p) ∧
      (save_path_model canon base p).2 = [FSFile.mk base .delOk] ∧
      cleanup_model base (fs0 ++ (save_path_model canon base p).2) =
        (none, fs0.filter (fun f => ! pyStartswith f.name base)) ∧
      (∀ f ∈ fs0, pyStartswith f.name base = false →
        f ∈ (cleanup_model base (fs0 ++ (save_path_model canon base p).2)).2)) ∧
    (∀ (base n : String) (e : Nat) (rest : List FSFile),
      base ≠ "" → pyStartswith n base = true →
      cleanup_model base (FSFile.mk n (.delFail e) :: rest) = (some e, rest)) ∧
    (∀ (base n : String) (rest : List FSFile),
      base ≠ "" → pyStartswith n base = true →
      cleanup_model base (FSFile.mk n .delEnoent :: rest) = cleanupRun base rest) := by
  refine ⟨?_, ?_, ?_⟩
  · intro canon base p fs0 hb h0
    have hall : ∀ f ∈ fs0 ++ (save_path_model canon base p).2,
        pyStartswith f.name base = true → f.del.isFail = false := by
      intro f hf
      rcases List.mem_append.mp hf with h1 | h2
      · exact h0 f h1
      · have : f = FSFile.mk base .delOk := by simpa [save_path_model] using h2
        subst this
        intro _
        rfl
    have hclean : cleanup_model base (fs0 ++ (save_path_model canon base p).2) =
        (none, (fs0 ++ (save_path_model canon base p).2).filter
          (fun f => ! pyStartswith f.name base)) := by
      unfold cleanup_model
      rw [if_neg hb]
      exact cleanupRun_all_ok base _ hall
    have hfilter : (fs0 ++ (save_path_model canon base p).2).filter
        (fun f => ! pyStartswith f.name base) =
        fs0.filter (fun f => ! pyStartswith f.name base) := by
      rw [List.filter_append]
      have : (save_path_model canon base p).2.filter (fun f => ! pyStartswith f.name base) = [] := by
        simp [save_path_model, List.filter_cons, pyStartswith_self]
      rw [this, List.append_nil]
    refine ⟨rfl, rfl, hclean.trans (by rw [hfilter]), ?_⟩
    intro f hf hns
    rw [hclean, hfilter]
    exact List.mem_filter.mpr ⟨hf, by simp [hns]⟩
  · intro base n e rest hb hp
    unfold cleanup_model
    rw [if_neg hb, cleanupRun, if_pos hp]
  · intro base n rest hb hp
    unfold cleanup_model
    rw [if_neg hb, cleanupRun, if_pos hp]

/-- Witness for the C9 theorem: a caller-owned file survives release of a
concrete base name, the caller path is yielded as the input unchanged
(identity canonicalization), a non-ENOENT deletion error propagates, and
an ENOENT is a no-op. -/
theorem save_cleanup_C9_witness :
    cleanup_model "/tmp/tess_x"
        [⟨"/home/u/a.png", DelBehavior.delOk⟩, ⟨"/tmp/tess_x", DelBehavior.delOk⟩] =
      (none, [⟨"/home/u/a.png", DelBehavior.delOk⟩]) ∧
    (save_path_model (fun s => s) "/tmp/tess_x" "/home/u/a.png").1 =
      ("/tmp/tess_x", "/home/u/a.png") ∧
    cleanup_model "/tmp/tess_x" [⟨"/tmp/tess_xA", DelBehavior.delFail 13⟩] = (some 13, []) ∧
    cleanup_model "/tmp/tess_x" [⟨"/tmp/tess_xB", DelBehavior.delEnoent⟩] =
      cleanupRun "/tmp/tess_x" [] := by
  have h := save_cleanup_C9.1 (fun s => s) "/tmp/tess_x" "/home/u/a.png"
    [⟨"/home/u/a.png", DelBehavior.delOk⟩] (by decide) (by decide)
  have h2 := save_cleanup_C9.2.1 "/tmp/tess_x" "/tmp/tess_xA" 13 [] (by decide) (by decide)
  have h3 := save_cleanup_C9.2.2 "/tmp/tess_x" "/tmp/tess_xB" [] (by decide) (by decide)
  exact ⟨h.2.2.1, h.1, h2, h3⟩

/-! ## Engine version (LooseVersion) and the operation facades -/

/-- A component of a distutils LooseVersion: an integer run or a string. -/
inductive VComp
  | num (n : Nat)
  | vstr (s : String)
deriving DecidableEq, Repr

/-- Character classes of LooseVersion's component regex: digit runs,
lowercase-letter runs, the dot separator, and everything else. -/
def vcharClass (c : Char) : Nat :=
  if c.isDigit then 0 else if 'a' ≤ c && c ≤ 'z' then 1 else if c = '.' then 2 else 3

/-- Emit the pending run as a version component; dots are dropped. -/
def flushComp (k : Nat) (cur : List Char) : List VComp :=
  if cur.isEmpty then []
  else if k = 2 then []
  else if k = 0 then [.num (digitsToNat cur.reverse)]
  else [.vstr (String.mk cur.reverse)]

/-- Group the characters into maximal runs of one class each. -/
def looseGo : Nat → List Char → List Char → List VComp
  | k, cur, [] => flushComp k cur
  | k, cur, c :: rest =>
    if vcharClass c = k then looseGo k (c :: cur) rest
    else flushComp k cur ++ looseGo (vcharClass c) [c] rest

/-- distutils LooseVersion parsing: split the string into digit runs
(converted to ints), lowercase-letter runs and other-character runs,
dropping the dots. -/
def looseParse (s : String) : List VComp := looseGo 2 [] s.data

/-- Python equality on version components; an int and a str are unequal
(equality never raises). -/
def vcompEqb : VComp → VComp → Bool
  | .num a, .num b => a == b
  | .vstr a, .vstr b => a == b
  | _, _ => false

/-- Python order on version components; comparing an int with a str
raises TypeError, modelled as none. -/
def vcompLt : VComp → VComp → Option Bool
  | .num a, .num b => some (decide (a < b))
  | .vstr a, .vstr b => some (decide (a < b))
  | _, _ => none

/-- Python list comparison on parsed versions, as LooseVersion uses it:
walk to the first unequal pair and compare it; a strict initial segment
is smaller. -/
def vlistLt : List VComp → List VComp → Option Bool
  | [], [] => some false
  | [], _ :: _ => some true
  | _ :: _, [] => some false
  | a :: as, b :: bs => if vcompEqb a b then vlistLt as bs else vcompLt a b

/-- Python str.split() with no separator: split on whitespace runs and
drop empty parts (first argument: current word, reversed). -/
def pySplitWsGo : List Char → List Char → List (List Char)
  | cur, [] => if cur.isEmpty then [] else [cur.reverse]
  | cur, c :: rest =>
    if pyIsSpaceB c then
      if cur.isEmpty then pySplitWsGo [] rest
      else cur.reverse :: pySplitWsGo [] rest
    else pySplitWsGo (c :: cur) rest

/-- Python str.split() with no separator. -/
def pyWhitespaceSplit (s : String) : List String :=
  (pySplitWsGo [] s.data).map String.mk

/-- string.printable[10:], the set lstripped from the version token: the
printable ASCII characters other than the digits, plus the whitespace
control characters. -/
def versionStripSet (c : Char) : Bool :=
  (0x20 ≤ c.toNat && c.toNat ≤ 0x7e && ! c.isDigit) ||
    c = '\t' || c = '\n' || c = '\r' || c = '\x0b' || c = '\x0c'

/-- get_tesseract_version (lines 409-424), applied to the decoded output
of `tesseract --version`: take the second whitespace-delimited token,
strip its leading non-digit printable characters, and parse the rest as a
LooseVersion. Fewer than two tokens raise IndexError. The
OSError-to-TesseractNotFoundError branch concerns process spawning and is
outside this model. -/
def get_tesseract_version_model (raw : String) : Except Err (List VComp) :=
  match (pyWhitespaceSplit raw).get? 1 with
  | none => .error .indexErr
  | some tok => .ok (looseParse (String.mk (tok.data.dropWhile versionStripSet)))

/-- The run_tesseract invocation an operation hands to run_and_get_output.
An operation that raises before producing an invocation spawns no
process. -/
structure Invocation where
  extension : String
  lang : Option String
  cfgStr : String
  nice : Int
  timeout : Nat
  returnBytes : Bool
deriving DecidableEq, Repr

/-- image_to_data (lines 489-517) up to its dispatch on the output type:
the cached engine version is compared against '3.05' first, and
TSVNotSupported is raised before any OCR process is spawned when it is
lower; otherwise the fixed config token enabling TSV creation is
formatted ahead of the caller's stripped config and the requested
extension is tsv. The default STRING output type is modelled, so
returnBytes is false. -/
def image_to_data_model (ver : List VComp) (lang : Option String) (cfg : String)
    (nice : Int) (timeout : Nat) : Except Err Invocation :=
  match vlistLt ver (looseParse "3.05") with
  | none => .error .typeErr
  | some true => .error .tsvNotSupported
  | some false =>
    .ok { extension := "tsv", lang := lang,
          cfgStr := pyStrip ("-c tessedit_create_tsv=1" ++ " " ++ pyStrip cfg),
          nice := nice, timeout := timeout, returnBytes := false }

/-- image_to_pdf_or_hocr (lines 442-453): any extension other than pdf
and hocr raises ValueError before any process is spawned; otherwise the
invocation always requests raw bytes (run_and_get_output is called with
return_bytes True; the function takes no output-type preference at all). -/
def image_to_pdf_or_hocr_model (extension : String) (lang : Option String) (cfg : String)
    (nice : Int) (timeout : Nat) : Except Err Invocation :=
  if ¬ (extension = "pdf" ∨ extension = "hocr") then
    .error (.valueErr ("Unsupported extension: " ++ extension))
  else
    .ok { extension := extension, lang := lang, cfgStr := cfg, nice := nice,
          timeout := timeout, returnBytes := true }

/-! ### Stripping lemmas for the injected config token -/

theorem dropWhile_dropWhile {α : Type} (p : α → Bool) (l : List α) :
    (l.dropWhile p).dropWhile p = l.dropWhile p := by
  induction l with
  | nil => rfl
  | cons a rest ih =>
    by_cases h : p a = true
    · rw [List.dropWhile_cons, if_pos h, ih]
    · rw [List.dropWhile_cons, if_neg h, List.dropWhile_cons, if_neg h]

theorem dropWhile_eq_self_append {α : Type} (p : α → Bool) (l1 l2 : List α)
    (h : l1.dropWhile p = l1) (hne : l1 ≠ []) :
    (l1 ++ l2).dropWhile p = l1 ++ l2 := by
  cases l1 with
  | nil => exact absurd rfl hne
  | cons a l =>
    have hpa : ¬ p a = true := by
      have := List.dropWhile_eq_self_iff.mp h (by simp)
      simpa using this
    rw [List.cons_append, List.dropWhile_cons, if_neg hpa]

/-- The trailing end of a stripped string is already stripped. -/
theorem pyStrip_reverse_dropWhile (s : String) :
    (pyStrip s).data.reverse.dropWhile pyIsSpaceB = (pyStrip s).data.reverse := by
  show (((s.data.dropWhile pyIsSpaceB).reverse.dropWhile pyIsSpaceB).reverse.reverse).dropWhile
      pyIsSpaceB = ((s.data.dropWhile pyIsSpaceB).reverse.dropWhile pyIsSpaceB).reverse.reverse
  rw [List.reverse_reverse]
  exact dropWhile_dropWhile pyIsSpaceB _

/-- Prepending the fixed TSV config token and a space to a
trailing-stripped string and stripping the result either yields the bare
token (when the string is empty) or keeps token, space and string
unchanged. -/
theorem pyStrip_fixed_concat_aux (t : String)
    (htail0 : t.data.reverse.dropWhile pyIsSpaceB = t.data.reverse) :
    pyStrip ("-c tessedit_create_tsv=1" ++ " " ++ t) =
      (if t = "" then "-c tessedit_create_tsv=1"
       else "-c tessedit_create_tsv=1" ++ " " ++ t) := by
  have hdata : ("-c tessedit_create_tsv=1" ++ " " ++ t).data =
      '-' :: ("c tessedit_create_tsv=1".data ++ ' ' :: t.data) := by
    rw [String.data_append, String.data_append]
    rfl
  have hlead : (('-' :: ("c tessedit_create_tsv=1".data ++ ' ' :: t.data)).dropWhile
      pyIsSpaceB) = '-' :: ("c tessedit_create_tsv=1".data ++ ' ' :: t.data) := by
    rw [List.dropWhile_cons]
    rfl
  unfold pyStrip
  rw [hdata, hlead]
  by_cases htd0 : t.data = []
  · have hempty : t = "" := congrArg String.mk htd0
    rw [htd0, if_pos hempty]
    rfl
  · have hne : t ≠ "" := by
      intro hc
      rw [hc] at htd0
      exact htd0 rfl
    rw [if_neg hne]
    have hrev : ('-' :: ("c tessedit_create_tsv=1".data ++ ' ' :: t.data)).reverse =
        t.data.reverse ++ (' ' :: "c tessedit_create_tsv=1".data.reverse ++ ['-']) := by
      simp
    rw [hrev]
    have htail : (t.data.reverse ++
        (' ' :: "c tessedit_create_tsv=1".data.reverse ++ ['-'])).dropWhile pyIsSpaceB =
        t.data.reverse ++ (' ' :: "c tessedit_create_tsv=1".data.reverse ++ ['-']) := by
      apply dropWhile_eq_self_append pyIsSpaceB _ _ htail0
      simpa using htd0
    rw [htail]
    have hRHS : ("-c tessedit_create_tsv=1" ++ " " ++ t) =
        String.mk ('-' :: ("c tessedit_create_tsv=1".data ++ ' ' :: t.data)) :=
      congrArg String.mk hdata
    rw [hRHS]
    apply congrArg String.mk
    simp

/-- Formatting the fixed TSV config token ahead of the caller's stripped
config and stripping the result keeps the token in front, followed by one
space and the stripped config when that is nonempty. -/
theorem pyStrip_fixed_concat (cfg : String) :
    pyStrip ("-c tessedit_create_tsv=1" ++ " " ++ pyStrip cfg) =
      (if pyStrip cfg = "" then "-c tessedit_create_tsv=1"
       else "-c tessedit_create_tsv=1" ++ " " ++ pyStrip cfg) :=
  pyStrip_fixed_concat_aux (pyStrip cfg) (pyStrip_reverse_dropWhile cfg)

/-- Claim C5: image_to_data checks the cached engine version first: when
it compares below 3.05 it raises TSVNotSupported without producing any
invocation (so no OCR process is spawned); when it compares at least 3.05
it produces an invocation with extension tsv whose config is the fixed
token -c tessedit_create_tsv=1 ahead of the caller's stripped config. -/
theorem image_to_data_version_C5 :
    (∀ (raw : String) (ver : List VComp) (lang : Option String) (cfg : String)
        (nice : Int) (timeout : Nat),
      get_tesseract_version_model raw = .ok ver →
      vlistLt ver (looseParse "3.05") = some true →
      image_to_data_model ver lang cfg nice timeout = .error Err.tsvNotSupported) ∧
    (∀ (ver : List VComp) (lang : Option String) (cfg : String) (nice : Int) (timeout : Nat),
      vlistLt ver (looseParse "3.05") = some false →
      ∃ inv, image_to_data_model ver lang cfg nice timeout = .ok inv ∧
        inv.extension = "tsv" ∧
        inv.cfgStr = (if pyStrip cfg = "" then "-c tessedit_create_tsv=1"
                      else "-c tessedit_create_tsv=1" ++ " " ++ pyStrip cfg)) := by
  constructor
  · intro raw ver lang cfg nice timeout _ hlt
    unfold image_to_data_model
    rw [hlt]
  · intro ver lang cfg nice timeout hlt
    refine ⟨{ extension := "tsv", lang := lang,
              cfgStr := pyStrip ("-c tessedit_create_tsv=1" ++ " " ++ pyStrip cfg),
              nice := nice, timeout := timeout, returnBytes := false }, ?_, rfl, ?_⟩
    · unfold image_to_data_model
      rw [hlt]
    · exact pyStrip_fixed_concat cfg

/-- Witness for the C5 theorem: the engine version string
"tesseract 3.04.01" parses to a version below 3.05 and extract-data
raises TSVNotSupported; version 4 is accepted and the invocation carries
extension tsv with the fixed token ahead of the caller's config. -/
theorem image_to_data_version_C5_witness :
    image_to_data_model [VComp.num 3, VComp.num 4, VComp.num 1] none "" 0 0 =
      .error Err.tsvNotSupported ∧
    get_tesseract_version_model "tesseract 3.04.01\n leptonica-1.72" =
      .ok [VComp.num 3, VComp.num 4, VComp.num 1] ∧
    image_to_data_model [VComp.num 4] none "--psm 6" 0 0 =
      .ok { extension := "tsv", lang := none, cfgStr := "-c tessedit_create_tsv=1 --psm 6",
            nice := 0, timeout := 0, returnBytes := false } := by
  refine ⟨?_, rfl, rfl⟩
  exact image_to_data_version_C5.1 "tesseract 3.04.01\n leptonica-1.72"
    [VComp.num 3, VComp.num 4, VComp.num 1] none "" 0 0 rfl rfl

/-- Claim C8: image_to_pdf_or_hocr accepts only the extensions pdf and
hocr; any other extension raises ValueError before an invocation exists
(so no process is spawned), and for the accepted extensions the produced
invocation always requests the raw byte buffer, there being no caller
output-type preference at all. -/
theorem image_to_pdf_or_hocr_ext_C8 :
    (∀ (extension : String) (lang : Option String) (cfg : String) (nice : Int) (timeout : Nat),
      ¬ (extension = "pdf" ∨ extension = "hocr") →
      image_to_pdf_or_hocr_model extension lang cfg nice timeout =
        .error (.valueErr ("Unsupported extension: " ++ extension))) ∧
    (∀ (extension : String) (lang : Option String) (cfg : String) (nice : Int) (timeout : Nat),
      (extension = "pdf" ∨ extension = "hocr") →
      image_to_pdf_or_hocr_model extension lang cfg nice timeout =
        .ok { extension := extension, lang := lang, cfgStr := cfg, nice := nice,
              timeout := timeout, returnBytes := true }) := by
  constructor
  · intro extension lang cfg nice timeout h
    unfold image_to_pdf_or_hocr_model
    rw [if_pos h]
  · intro extension lang cfg nice timeout h
    unfold image_to_pdf_or_hocr_model
    rw [if_neg (not_not_intro h)]

/-- Witness for the C8 theorem: the spec's concrete example "txt" is
rejected with ValueError, and "pdf" yields a raw-bytes invocation. -/
theorem image_to_pdf_or_hocr_ext_C8_witness :
    image_to_pdf_or_hocr_model "txt" none "" 0 0 =
      .error (Err.valueErr "Unsupported extension: txt") ∧
    image_to_pdf_or_hocr_model "pdf" none "" 0 0 =
      .ok { extension := "pdf", lang := none, cfgStr := "", nice := 0, timeout := 0,
            returnBytes := true } :=
  ⟨image_to_pdf_or_hocr_ext_C8.1 "txt" none "" 0 0 (by decide),
   image_to_pdf_or_hocr_ext_C8.2 "pdf" none "" 0 0 (Or.inl rfl)⟩

/-! ## Image preparation (prepare, src/pytesseract.py lines 227-251) -/

/-- A pixel: its semantic color and alpha (255 = fully opaque). For modes
without an alpha band the alpha entry is 255. -/
structure RGBA where
  r : Nat
  g : Nat
  b : Nat
  a : Nat
deriving DecidableEq, Repr

/-- An in-memory PIL image: color mode tag, declared format, and pixel
data (geometry is irrelevant to the claims and omitted; the info dict is
not modelled). -/
structure PImage where
  mode : String
  fmt : Option String
  pixels : List RGBA
deriving DecidableEq, Repr

/-- The PIL modes covered by this model (the premultiplied-alpha raw
modes RGBa/La are outside it). -/
def pilModes : List String :=
  ["1", "L", "LA", "P", "PA", "I", "F", "RGB", "RGBA", "RGBX", "CMYK", "YCbCr", "HSV"]

/-- PIL Image.getbands: the band names of a mode. -/
def getbands (mode : String) : List String :=
  if mode = "YCbCr" then ["Y", "Cb", "Cr"]
  else mode.data.map (fun c => String.mk [c])

def SUPPORTED_FORMATS : List String :=
  ["JPEG", "PNG", "PBM", "PGM", "PPM", "TIFF", "BMP", "GIF", "WEBP"]

/-- PIL convert('RGB'): the mode becomes RGB; each pixel keeps its color
and any alpha information is discarded (no compositing happens here). -/
def convertToRGB (img : PImage) : PImage :=
  { mode := "RGB", fmt := img.fmt,
    pixels := img.pixels.map (fun p => { r := p.r, g := p.g, b := p.b, a := 255 }) }

/-- One pixel of background.paste(image, (0,0), image) over a white RGB
background: blend toward white by the pixel's own alpha; a fully opaque
pixel keeps its color exactly. -/
def blendOverWhite (p : RGBA) : RGBA :=
  { r := (p.r * p.a + 255 * (255 - p.a)) / 255,
    g := (p.g * p.a + 255 * (255 - p.a)) / 255,
    b := (p.b * p.a + 255 * (255 - p.a)) / 255,
    a := 255 }

/-- The alpha-discarding composite of prepare (lines 241-245): a fresh
white RGB background of the same size with the image pasted over it,
masked by its own alpha band. -/
def compositeOnWhite (img : PImage) : PImage :=
  { mode := "RGB", fmt := none, pixels := img.pixels.map blendOverWhite }

/-- The value handed to prepare: a PIL image, a numpy array (wrapped by
Image.fromarray, which yields an image with no declared format), or any
other value, rejected with TypeError. -/
inductive PrepInput
  | pil (img : PImage)
  | ndarr (img : PImage)
  | other

/-- `'PNG' if not image.format else image.format` (line 234). -/
def chooseExt : Option String → String
  | none => "PNG"
  | some f => if f = "" then "PNG" else f

/-- Lines 238-239: convert to RGB unless the mode already starts with RGB. -/
def normalizeMode (img : PImage) : PImage :=
  if pyStartswith img.mode "RGB" then img else convertToRGB img

/-- Lines 241-245: composite over white when an A band is present. -/
def removeAlpha (img : PImage) : PImage :=
  if "A" ∈ getbands img.mode then compositeOnWhite img else img

/-- The image part of prepare (lines 234-251): default the format to PNG,
reject unsupported formats with TypeError, convert a non-RGB-family mode
to RGB, composite over an opaque white background when an A band is
present, and stamp the chosen format on the result. -/
def prepareImage (img : PImage) : Except Err (PImage × String) :=
  if chooseExt img.fmt ∈ SUPPORTED_FORMATS then
    .ok ({ removeAlpha (normalizeMode img) with fmt := some (chooseExt img.fmt) },
         chooseExt img.fmt)
  else .error .typeErr

/-- prepare (lines 227-251). -/
def prepare : PrepInput → Except Err (PImage × String)
  | .other => .error .typeErr
  | .ndarr img => prepareImage { img with fmt := none }
  | .pil img => prepareImage img

theorem blendOverWhite_opaque (p : RGBA) (ha : p.a = 255) :
    (blendOverWhite p).r = p.r ∧ (blendOverWhite p).g = p.g ∧ (blendOverWhite p).b = p.b := by
  unfold blendOverWhite
  rw [ha]
  refine ⟨?_, ?_, ?_⟩ <;> simp

theorem map_pixel_preserves (f : RGBA → RGBA)
    (hf : ∀ p, p.a = 255 → (f p).r = p.r ∧ (f p).g = p.g ∧ (f p).b = p.b)
    (l : List RGBA) (i : Nat) (p : RGBA) (hp : l.get? i = some p) (ha : p.a = 255) :
    ∃ q, (l.map f).get? i = some q ∧ q.r = p.r ∧ q.g = p.g ∧ q.b = p.b := by
  refine ⟨f p, ?_, (hf p ha).1, (hf p ha).2.1, (hf p ha).2.2⟩
  rw [List.get?_map, hp]
  rfl

/-- Claim C7: every image accepted by prepare comes out in an RGB-family
mode with no alpha band; a non-RGB-family input is converted to RGB, and
a present alpha band is removed by compositing over an opaque white
background of identical size, which leaves every fully opaque pixel's
color unchanged. -/
theorem prepare_rgb_noalpha_C7 (img : PImage) (hmode : img.mode ∈ pilModes)
    (out : PImage) (ext : String)
    (hok : prepare (.pil img) = .ok (out, ext)) :
    pyStartswith out.mode "RGB" = true ∧
    "A" ∉ getbands out.mode ∧
    out.pixels.length = img.pixels.length ∧
    (∀ i p, img.pixels.get? i = some p → p.a = 255 →
      ∃ q, out.pixels.get? i = some q ∧ q.r = p.r ∧ q.g = p.g ∧ q.b = p.b) := by
  have hok2 : prepareImage img = .ok (out, ext) := hok
  unfold prepareImage at hok2
  by_cases hsupp : chooseExt img.fmt ∈ SUPPORTED_FORMATS
  · rw [if_pos hsupp] at hok2
    rw [Except.ok.injEq, Prod.mk.injEq] at hok2
    obtain ⟨hout, _⟩ := hok2
    subst hout
    by_cases hrgb : pyStartswith img.mode "RGB" = true
    · rw [normalizeMode, if_pos hrgb]
      by_cases halpha : "A" ∈ getbands img.mode
      · rw [removeAlpha, if_pos halpha]
        refine ⟨(by decide : pyStartswith "RGB" "RGB" = true),
          (by decide : "A" ∉ getbands "RGB"), by simp [compositeOnWhite], ?_⟩
        intro i p hp ha
        exact map_pixel_preserves blendOverWhite blendOverWhite_opaque img.pixels i p hp ha
      · rw [removeAlpha, if_neg halpha]
        exact ⟨hrgb, halpha, rfl, fun i p hp _ => ⟨p, hp, rfl, rfl, rfl⟩⟩
    · rw [normalizeMode, if_neg hrgb]
      have hnoA : ¬ "A" ∈ getbands (convertToRGB img).mode :=
        (by decide : ¬ "A" ∈ getbands "RGB")
      rw [removeAlpha, if_neg hnoA]
      refine ⟨(by decide : pyStartswith "RGB" "RGB" = true),
        (by decide : "A" ∉ getbands "RGB"), by simp [convertToRGB], ?_⟩
      intro i p hp ha
      exact map_pixel_preserves (fun p => { r := p.r, g := p.g, b := p.b, a := 255 })
        (fun p _ => ⟨rfl, rfl, rfl⟩) img.pixels i p hp ha
  · rw [if_neg hsupp] at hok2
    exact absurd hok2 (by simp)

/-- Witness for the C7 theorem: a one-pixel RGBA PNG image with a fully
opaque pixel is composited to an RGB image with that pixel unchanged. -/
theorem prepare_rgb_noalpha_C7_witness :
    prepare (.pil (PImage.mk "RGBA" (some "PNG") [RGBA.mk 10 20 30 255])) =
      .ok (PImage.mk "RGB" (some "PNG") [RGBA.mk 10 20 30 255], "PNG") ∧
    pyStartswith "RGB" "RGB" = true ∧
    "A" ∉ getbands "RGB" := by
  have h := prepare_rgb_noalpha_C7 (PImage.mk "RGBA" (some "PNG") [RGBA.mk 10 20 30 255])
    (by decide) (PImage.mk "RGB" (some "PNG") [RGBA.mk 10 20 30 255]) "PNG" rfl
  exact ⟨rfl, h.1, h.2.1⟩

end Pytess
